import Mathlib

/-!
Verification of the pairing-based IBE/ABE engine of crypto-sample-ts.

The TypeScript sources under `src/asymmetric/ibe.ts` and `src/asymmetric/abe.ts`
are thin wrappers around a Rust/WebAssembly core (`wasm-src/ibe-wasm`,
`wasm-src/abe-wasm`) whose Rust sources are not part of the repository
snapshot; only the wrappers, the tests and the design documents are.  The
wrapper layer (module-initialization state, error wrapping) is therefore
embedded directly from the TypeScript code, while the cryptographic core
(Setup / Extract / Encrypt / Decrypt for Boneh-Franklin IBE and the
conjunctive CP/KP ABE generalization) is modelled from the specification.

Modelling conventions for the core:
* The pairing groups G1, G2, GT are cyclic of prime order; every group
  element produced by the protocols is a known multiple of the generator, so
  we represent points by their discrete logarithm with respect to the
  generator `P` (so `P` itself is `1`), scalars by `ZMod groupOrder`, and the
  bilinear pairing `e(xP, yQ)` by the exponent `x * y` of `e(P, Q)`.
  Bilinearity `e(aP, bQ) = e(P, Q) ^ (a * b)` is then ring multiplication.
* GT elements are likewise represented by their exponent; a product of GT
  values is a sum of exponents and `g ^ r` is `g * r`.
* Byte strings are `List Nat` with entries below 256; the SHA-256-based
  hash-to-group map and the KDF are external primitives per the spec (§6) and
  are modelled by concrete deterministic mixing functions.
* Randomized operations (`setup` draws `s`, `encrypt` draws `r`) take the
  drawn scalar as an explicit argument.
-/

/-- Order of the pairing groups in the model (a prime; a stand-in for the
BN254 group order used by the wasm core). -/
def groupOrder : Nat := 2147483647

/-- Scalars: integers modulo the group order (spec §3). -/
abbrev Scalar := ZMod groupOrder

/-- Byte strings (identities, attribute labels, messages) as lists of
naturals below 256. -/
abbrev Label := List Nat

/-- Discrete logarithm of the fixed generator point `P` with respect to
itself. -/
def generatorDL : Scalar := 1

/-- Bilinear pairing in discrete-logarithm representation: the exponent of
`e(xP, yP)` with respect to `e(P, P)` is `x * y`. -/
def pairDL (x y : Scalar) : Scalar := x * y

/-- Modelled from the spec: hash-to-group (§4.2) hashes the input bytes with
a conventional hash and maps into the curve; the conventional hash is an
external primitive (§6), modelled here by a concrete deterministic folding
mix.  Determinism (same bytes, same point) is the property the spec
requires and is definitional here. -/
def hashToPoint (bs : Label) : Scalar :=
  bs.foldl (fun a b => a * 257 + ((b : Scalar) + 1)) 1

/-- Modelled from the spec: one block of the conventional hash used inside
the KDF (an external primitive per §6), as a concrete mixing function. -/
def mixFn (x : Nat) : Nat := (x * 1103515245 + 12345) % 2147483648

/-- Modelled from the spec: the KDF (§4.4) stretches a pairing output into a
mask of exactly `n` bytes by repeated hashing with a counter. -/
def kdf (gt : Scalar) (n : Nat) : List Nat :=
  (List.range n).map (fun i => mixFn (gt.val + i) % 256)

/-- Bytewise XOR of two byte strings (truncating to the shorter). -/
def xorBytes (a b : List Nat) : List Nat := List.zipWith Nat.xor a b

/-- Modelled from the spec: the keyed checksum of the plaintext appended at
ABE Encrypt time and verified after unmasking (§7, AttributeMismatch). -/
def checkTag (pv : Scalar) (m : List Nat) : Nat :=
  (pv.val + m.foldl (fun a b => a * 31 + b + 1) 7) % 4294967296

/-! ## IBE protocol (Boneh-Franklin), modelled from the spec §4.4 -/

/-- Master key of the IBE/ABE engine: the secret scalar drawn at Setup.
Field named `secret` after the wire object observed in
`tests/asymmetric/ibe-full.test.ts` (`masterKey.secret`). -/
structure IBEMasterKey where
  secret : Scalar
deriving DecidableEq

/-- Public parameters: `publicPoint = s · P` in discrete-log representation.
Field named `params` after `publicParams.params` in the tests. -/
structure IBEPublicParams where
  params : Scalar
deriving DecidableEq

/-- IBE private key: `keyPoint = s · H(identity)` (spec §3), field named
`key` after `privateKey.key` in the tests. -/
structure IBEPrivateKey where
  key : Scalar
deriving DecidableEq

/-- IBE ciphertext `(U, V)`: masking point `U = r · P` and masked payload
`V = M ⊕ KDF(e(P_pub, H(id))^r)` (spec §3, §4.4). -/
structure IBECiphertext where
  U : Scalar
  V : List Nat
deriving DecidableEq

/-- Modelled from the spec: IBE Setup (§4.4) with the drawn random scalar
`s` passed explicitly.  `P_pub = s·P`. -/
def setupIBE (s : Scalar) : IBEMasterKey × IBEPublicParams :=
  ({ secret := s }, { params := s * generatorDL })

/-- Modelled from the spec: IBE Extract (§4.4): `keyPoint = s · H(id)`.
Deterministic: draws no randomness. -/
def extractIBEKey (mk : IBEMasterKey) (id : Label) : IBEPrivateKey :=
  { key := mk.secret * hashToPoint id }

/-- Modelled from the spec: IBE Encrypt (§4.4) with the drawn ephemeral
scalar `r` passed explicitly: `U = r·P`,
`V = M ⊕ KDF(e(P_pub, H(id))^r)` with the mask stretched to `|M|`. -/
def encryptIBE (pp : IBEPublicParams) (id : Label) (m : List Nat)
    (r : Scalar) : IBECiphertext :=
  { U := r * generatorDL
    V := xorBytes m (kdf (pairDL pp.params (hashToPoint id) * r) m.length) }

/-- Modelled from the spec: IBE Decrypt (§4.4):
`M = V ⊕ KDF(e(keyPoint, U))`.  Total: the Boneh-Franklin construction
signals no mismatch (spec §4.4). -/
def decryptIBE (k : IBEPrivateKey) (c : IBECiphertext) : List Nat :=
  xorBytes c.V (kdf (pairDL k.key c.U) c.V.length)

/-! ## ABE protocol (conjunctive CP/KP model), modelled from the spec §4.5 -/

/-- Error taxonomy of the engine (spec §7). -/
inductive ABEError where
  | InvalidEncoding
  | EmptyPolicy
  | AttributeMismatch
  | EntropyUnavailable
deriving DecidableEq

/-- ABE master key (same shape as the IBE one: the Setup secret scalar). -/
structure ABEMasterKey where
  secret : Scalar
deriving DecidableEq

/-- ABE public parameters (`publicPoint = s·P`). -/
structure ABEPublicParams where
  params : Scalar
deriving DecidableEq

/-- ABE private key: the map `attribute label → keyComponent` with
`keyComponent_a = s · H(a)`, plus the governing attribute set itself
(spec §3 and §4.5; the tests read `privateKey.attributes`). -/
structure ABEPrivateKey where
  attributes : List Label
  key : List (Label × Scalar)
deriving DecidableEq

/-- ABE ciphertext: masking point `U = r·P`, masked payload `V`, the
integrity tag of §7, and the attribute/policy list the ciphertext was
produced under (spec §3). -/
structure ABECiphertext where
  U : Scalar
  V : List Nat
  tag : Nat
  attrs : List Label
deriving DecidableEq

/-- Modelled from the spec: ABE Setup (§4.5), identical to IBE Setup. -/
def setupABE (s : Scalar) : ABEMasterKey × ABEPublicParams :=
  ({ secret := s }, { params := s * generatorDL })

/-- Key components produced at KeyGen: one `s · H(a)` per attribute. -/
def mkComponents (s : Scalar) (attrs : List Label) : List (Label × Scalar) :=
  attrs.map (fun a => (a, s * hashToPoint a))

/-- Modelled from the spec: CP-ABE KeyGen (§4.5): components `s · H(a)` for
every attribute; an empty attribute set is rejected with EmptyPolicy
(§4.5 edge cases). -/
def keyGenABE (mk : ABEMasterKey) (attrs : List Label) :
    Except ABEError ABEPrivateKey :=
  if attrs = [] then .error .EmptyPolicy
  else .ok { attributes := attrs, key := mkComponents mk.secret attrs }

/-- Modelled from the spec: CP-ABE Encrypt (§4.5) with the drawn ephemeral
scalar `r` explicit: `U = r·P`, the pairing outputs of all policy
attributes are combined (product in GT = sum of exponents), the mask is the
KDF of the combined value, and the integrity tag of §7 is appended.  An
empty policy is rejected with EmptyPolicy. -/
def encryptABE (pp : ABEPublicParams) (po : List Label) (m : List Nat)
    (r : Scalar) : Except ABEError ABECiphertext :=
  if po = [] then .error .EmptyPolicy
  else
    let pv := (po.map (fun a => pairDL pp.params (hashToPoint a) * r)).sum
    .ok { U := r * generatorDL
          V := xorBytes m (kdf pv m.length)
          tag := checkTag pv m
          attrs := po }

/-- Association-list lookup of a key component. -/
def lookupComp : List (Label × Scalar) → Label → Option Scalar
  | [], _ => none
  | (b, c) :: t, a => if a = b then some c else lookupComp t a

/-- Collect the key components for every attribute of the ciphertext's
governing list; `none` when one is absent (the attribute-mismatch
condition of §4.5). -/
def gatherComps (k : List (Label × Scalar)) : List Label → Option (List Scalar)
  | [] => some []
  | a :: t =>
    match lookupComp k a, gatherComps k t with
    | some c, some cs => some (c :: cs)
    | _, _ => none

/-- Test that every element of `ct` occurs in `ka` (the conjunctive
coverage condition on attribute lists). -/
def coversB (ka ct : List Label) : Bool :=
  ct.all (fun a => decide (a ∈ ka))

/-- Modelled from the spec: CP-ABE Decrypt (§4.5): gather the key component
of every attribute in the ciphertext's governing list (absence is the
attribute-mismatch condition and is reported, not silently returned as
garbage), recombine the pairing product, unmask, and verify the §7
integrity tag, reporting AttributeMismatch when it fails. -/
def decryptABE (k : ABEPrivateKey) (c : ABECiphertext) :
    Except ABEError (List Nat) :=
  match gatherComps k.key c.attrs with
  | none => .error .AttributeMismatch
  | some cs =>
    let pv := (cs.map (fun comp => pairDL comp c.U)).sum
    let m := xorBytes c.V (kdf pv c.V.length)
    if checkTag pv m = c.tag then .ok m else .error .AttributeMismatch

/-- Modelled from the spec: KP-ABE Setup, identical to CP-ABE Setup
(§4.5). -/
def setupKPABE (s : Scalar) : ABEMasterKey × ABEPublicParams := setupABE s

/-- Modelled from the spec: KP-ABE KeyGen takes the policy (the set the key
is good for); arithmetic symmetric to CP-ABE (§4.5). -/
def keyGenKPABE (mk : ABEMasterKey) (po : List Label) :
    Except ABEError ABEPrivateKey := keyGenABE mk po

/-- Modelled from the spec: KP-ABE Encrypt takes the attribute set
describing the ciphertext; arithmetic symmetric to CP-ABE with the two
input sets swapped (§4.5). -/
def encryptKPABE (pp : ABEPublicParams) (attrs : List Label) (m : List Nat)
    (r : Scalar) : Except ABEError ABECiphertext := encryptABE pp attrs m r

/-- Modelled from the spec: KP-ABE Decrypt, symmetric to CP-ABE Decrypt
(§4.5): the decryptor recombines the pairing product over the ciphertext's
stored attribute list from its per-attribute key components. -/
def decryptKPABE (k : ABEPrivateKey) (c : ABECiphertext) :
    Except ABEError (List Nat) := decryptABE k c

/-- Whole CP-ABE scenario under one Setup: KeyGen with attribute set `ka`,
Encrypt under policy `po`, Decrypt with the generated key. -/
def abeChain (s r : Scalar) (ka po : List Label) (m : List Nat) :
    Except ABEError (List Nat) :=
  (keyGenABE (setupABE s).1 ka).bind (fun k =>
    (encryptABE (setupABE s).2 po m r).bind (fun c => decryptABE k c))

/-- Whole KP-ABE scenario under one Setup: KeyGen with policy `po`, Encrypt
under attribute set `attrs`, Decrypt with the generated key. -/
def kpabeChain (s r : Scalar) (po attrs : List Label) (m : List Nat) :
    Except ABEError (List Nat) :=
  (keyGenKPABE (setupKPABE s).1 po).bind (fun k =>
    (encryptKPABE (setupKPABE s).2 attrs m r).bind (fun c => decryptKPABE k c))

/-! ## Serialization, modelled from the spec §6: fixed-width big-endian
scalar encodings, length-prefixed byte strings, attribute-label lists in
insertion order. -/

instance : NeZero groupOrder := ⟨by decide⟩

/-- Fixed-width big-endian encoding of a natural in `l` bytes. -/
def natToBE : Nat → Nat → List Nat
  | 0, _ => []
  | l + 1, v => natToBE l (v / 256) ++ [v % 256]

/-- Big-endian value of a byte string. -/
def beToNat (bs : List Nat) : Nat := bs.foldl (fun a b => a * 256 + b) 0

/-- Read exactly `n` bytes (each must be below 256) and return the rest. -/
def readBytesN : Nat → List Nat → Option (List Nat × List Nat)
  | 0, bs => some ([], bs)
  | _ + 1, [] => none
  | n + 1, b :: t =>
    if b < 256 then (readBytesN n t).map (fun p => (b :: p.1, p.2)) else none

/-- Read a 4-byte big-endian length/tag field. -/
def readLen (bs : List Nat) : Option (Nat × List Nat) :=
  (readBytesN 4 bs).map (fun p => (beToNat p.1, p.2))

/-- Read a scalar: 4 bytes big-endian, value reduced below the group order
(malformed encodings are rejected, spec §7 InvalidEncoding). -/
def readScalar (bs : List Nat) : Option (Scalar × List Nat) :=
  (readBytesN 4 bs).bind (fun p =>
    if beToNat p.1 < groupOrder then some (((beToNat p.1 : Nat) : Scalar), p.2)
    else none)

/-- Read a length-prefixed byte string. -/
def readBlob (bs : List Nat) : Option (List Nat × List Nat) :=
  (readLen bs).bind (fun p => readBytesN p.1 p.2)

/-- Read `n` length-prefixed byte strings. -/
def readBlobs : Nat → List Nat → Option (List (List Nat) × List Nat)
  | 0, bs => some ([], bs)
  | n + 1, bs =>
    (readBlob bs).bind (fun p =>
      (readBlobs n p.2).map (fun q => (p.1 :: q.1, q.2)))

/-- Read `n` scalars. -/
def readScalars : Nat → List Nat → Option (List Scalar × List Nat)
  | 0, bs => some ([], bs)
  | n + 1, bs =>
    (readScalar bs).bind (fun p =>
      (readScalars n p.2).map (fun q => (p.1 :: q.1, q.2)))

/-- Fixed-width scalar encoding (4 bytes big-endian in this model). -/
def encScalar (x : Scalar) : List Nat := natToBE 4 x.val

/-- Length-prefixed byte-string encoding. -/
def encBlob (bs : List Nat) : List Nat := natToBE 4 bs.length ++ bs

/-- Count-prefixed encoding of a label list, in insertion order (§6). -/
def encBlobs (as : List Label) : List Nat :=
  natToBE 4 as.length ++ (as.map encBlob).flatten

/-- Byte-string wellformedness: every entry is a byte. -/
def WFbytes (bs : List Nat) : Prop := ∀ b ∈ bs, b < 256

instance (bs : List Nat) : Decidable (WFbytes bs) := by
  unfold WFbytes
  infer_instance

/-- A serializable byte string: bytes below 256 and a length that fits the
4-byte prefix. -/
def WFblob (bs : List Nat) : Prop := WFbytes bs ∧ bs.length < 4294967296

instance (bs : List Nat) : Decidable (WFblob bs) := by
  unfold WFblob
  infer_instance

/-- A serializable label list. -/
def WFlabels (as : List Label) : Prop :=
  (∀ a ∈ as, WFblob a) ∧ as.length < 4294967296

instance (as : List Label) : Decidable (WFlabels as) := by
  unfold WFlabels
  infer_instance

/-- Wire encoding of a master key (spec §6): one fixed-width scalar. -/
def encodeIBEMasterKey (k : IBEMasterKey) : List Nat := encScalar k.secret

/-- Wire decoding of a master key; rejects trailing bytes. -/
def decodeIBEMasterKey (bs : List Nat) : Option IBEMasterKey :=
  (readScalar bs).bind (fun p => if p.2 = [] then some { secret := p.1 } else none)

/-- Wire encoding of public parameters (spec §6). -/
def encodeIBEPublicParams (pp : IBEPublicParams) : List Nat := encScalar pp.params

/-- Wire decoding of public parameters. -/
def decodeIBEPublicParams (bs : List Nat) : Option IBEPublicParams :=
  (readScalar bs).bind (fun p => if p.2 = [] then some { params := p.1 } else none)

/-- Wire encoding of an IBE private key (spec §6). -/
def encodeIBEPrivateKey (k : IBEPrivateKey) : List Nat := encScalar k.key

/-- Wire decoding of an IBE private key. -/
def decodeIBEPrivateKey (bs : List Nat) : Option IBEPrivateKey :=
  (readScalar bs).bind (fun p => if p.2 = [] then some { key := p.1 } else none)

/-- Wire encoding of an IBE ciphertext: masking point then length-prefixed
payload (spec §6). -/
def encodeIBECiphertext (c : IBECiphertext) : List Nat :=
  encScalar c.U ++ encBlob c.V

/-- Wire decoding of an IBE ciphertext. -/
def decodeIBECiphertext (bs : List Nat) : Option IBECiphertext :=
  (readScalar bs).bind (fun p =>
    (readBlob p.2).bind (fun q =>
      if q.2 = [] then some { U := p.1, V := q.1 } else none))

/-- Wire encoding of an ABE master key. -/
def encodeABEMasterKey (k : ABEMasterKey) : List Nat := encScalar k.secret

/-- Wire decoding of an ABE master key. -/
def decodeABEMasterKey (bs : List Nat) : Option ABEMasterKey :=
  (readScalar bs).bind (fun p => if p.2 = [] then some { secret := p.1 } else none)

/-- Wire encoding of ABE public parameters. -/
def encodeABEPublicParams (pp : ABEPublicParams) : List Nat := encScalar pp.params

/-- Wire decoding of ABE public parameters. -/
def decodeABEPublicParams (bs : List Nat) : Option ABEPublicParams :=
  (readScalar bs).bind (fun p => if p.2 = [] then some { params := p.1 } else none)

/-- Wire encoding of an ABE private key: the attribute-label list in
insertion order, then one fixed-width scalar component per attribute
(spec §6). -/
def encodeABEPrivateKey (k : ABEPrivateKey) : List Nat :=
  encBlobs k.attributes ++ (k.key.map (fun p => encScalar p.2)).flatten

/-- Wire decoding of an ABE private key. -/
def decodeABEPrivateKey (bs : List Nat) : Option ABEPrivateKey :=
  (readLen bs).bind (fun p =>
    (readBlobs p.1 p.2).bind (fun q =>
      (readScalars p.1 q.2).bind (fun w =>
        if w.2 = [] then some { attributes := q.1, key := q.1.zip w.1 }
        else none)))

/-- Wire encoding of an ABE ciphertext: masking point, length-prefixed
payload, 4-byte integrity tag, attribute list (spec §3, §6). -/
def encodeABECiphertext (c : ABECiphertext) : List Nat :=
  encScalar c.U ++ encBlob c.V ++ natToBE 4 c.tag ++ encBlobs c.attrs

/-- Wire decoding of an ABE ciphertext. -/
def decodeABECiphertext (bs : List Nat) : Option ABECiphertext :=
  (readScalar bs).bind (fun p =>
    (readBlob p.2).bind (fun q =>
      (readLen q.2).bind (fun w =>
        (readLen w.2).bind (fun n =>
          (readBlobs n.1 n.2).bind (fun z =>
            if z.2 = [] then
              some { U := p.1, V := q.1, tag := w.1, attrs := z.1 }
            else none)))))

/-- Wellformedness of a constructed ABE private key: serializable labels and
the component map keyed exactly by the attribute list (the invariant KeyGen
establishes). -/
def WFABEPrivateKey (k : ABEPrivateKey) : Prop :=
  WFlabels k.attributes ∧ k.key.map Prod.fst = k.attributes

instance (k : ABEPrivateKey) : Decidable (WFABEPrivateKey k) := by
  unfold WFABEPrivateKey
  infer_instance

/-- Wellformedness of a constructed ABE ciphertext. -/
def WFABECiphertext (c : ABECiphertext) : Prop :=
  WFblob c.V ∧ c.tag < 4294967296 ∧ WFlabels c.attrs

instance (c : ABECiphertext) : Decidable (WFABECiphertext c) := by
  unfold WFABECiphertext
  infer_instance

/-! ## TypeScript wrapper layer, embedded from src/asymmetric/ibe.ts and
src/asymmetric/abe.ts.  The module-level mutable bindings `wasmModule` and
`isInitialized` are the module state; `initIBE`/`initABE` set both on first
use and return early when already set; every public operation first runs
init and then checks `wasmModule`. -/

/-- Module state of a wrapper file: whether `wasmModule` is non-null and the
`isInitialized` flag (ibe.ts lines 19-20, abe.ts lines 20-21). -/
structure WasmModuleState where
  loaded : Bool
  initialized : Bool
deriving DecidableEq

/-- Embedding of `initIBE` (ibe.ts): return early when initialized and
loaded, otherwise load the wasm module and set both flags. -/
def initIBEState (st : WasmModuleState) : WasmModuleState :=
  if st.initialized && st.loaded then st
  else { loaded := true, initialized := true }

/-- Embedding of `initABE` (abe.ts): same init-latch shape as `initIBE`. -/
def initABEState (st : WasmModuleState) : WasmModuleState :=
  if st.initialized && st.loaded then st
  else { loaded := true, initialized := true }

/-- Embedding of `generateIBEKeyPair`: run init, fail when the module is
still unloaded, else call the wasm setup (its drawn scalar explicit). -/
def generateIBEKeyPairOp (st : WasmModuleState) (s : Scalar) :
    WasmModuleState × Except String (IBEMasterKey × IBEPublicParams) :=
  let st2 := initIBEState st
  if st2.loaded then (st2, .ok (setupIBE s))
  else (st2, .error "IBE module not initialized")

/-- Embedding of `extractIBEKey` (ibe.ts): init, null-check, wasm call. -/
def extractIBEKeyOp (st : WasmModuleState) (mk : IBEMasterKey) (id : Label) :
    WasmModuleState × Except String IBEPrivateKey :=
  let st2 := initIBEState st
  if st2.loaded then (st2, .ok (extractIBEKey mk id))
  else (st2, .error "IBE module not initialized")

/-- Embedding of `encryptIBE` (ibe.ts): init, null-check, wasm call. -/
def encryptIBEOp (st : WasmModuleState) (pp : IBEPublicParams) (id : Label)
    (m : List Nat) (r : Scalar) :
    WasmModuleState × Except String IBECiphertext :=
  let st2 := initIBEState st
  if st2.loaded then (st2, .ok (encryptIBE pp id m r))
  else (st2, .error "IBE module not initialized")

/-- Embedding of `decryptIBE` (ibe.ts): init, null-check, wasm call. -/
def decryptIBEOp (st : WasmModuleState) (k : IBEPrivateKey)
    (c : IBECiphertext) : WasmModuleState × Except String (List Nat) :=
  let st2 := initIBEState st
  if st2.loaded then (st2, .ok (decryptIBE k c))
  else (st2, .error "IBE module not initialized")

/-- Embedding of `extractABEKey` (abe.ts): init, null-check, wasm call. -/
def extractABEKeyOp (st : WasmModuleState) (mk : ABEMasterKey)
    (attrs : List Label) :
    WasmModuleState × Except String (Except ABEError ABEPrivateKey) :=
  let st2 := initABEState st
  if st2.loaded then (st2, .ok (keyGenABE mk attrs))
  else (st2, .error "ABE module not initialized")

/-- Embedding of `encryptABE` (abe.ts): init, null-check, wasm call. -/
def encryptABEOp (st : WasmModuleState) (pp : ABEPublicParams)
    (po : List Label) (m : List Nat) (r : Scalar) :
    WasmModuleState × Except String (Except ABEError ABECiphertext) :=
  let st2 := initABEState st
  if st2.loaded then (st2, .ok (encryptABE pp po m r))
  else (st2, .error "ABE module not initialized")

/-- Embedding of `decryptABE` (abe.ts): init, null-check, wasm call. -/
def decryptABEOp (st : WasmModuleState) (k : ABEPrivateKey)
    (c : ABECiphertext) :
    WasmModuleState × Except String (Except ABEError (List Nat)) :=
  let st2 := initABEState st
  if st2.loaded then (st2, .ok (decryptABE k c))
  else (st2, .error "ABE module not initialized")

/-- Error-wrapping pattern of the TypeScript wrappers: a thrown wasm error
is re-thrown as an Error whose message is the operation's fixed text
followed by the original error; a successful call passes through. -/
def wrapCall {α : Type} (head : String) (r : Except String α) :
    Except String α :=
  match r with
  | .ok v => .ok v
  | .error e => .error (head ++ e)

/-- Catch branch of `extractIBEKey` (ibe.ts line 110). -/
def extractIBEKeyCall (r : Except String IBEPrivateKey) :
    Except String IBEPrivateKey := wrapCall "IBE extract failed: " r

/-- Catch branch of `encryptIBE` (ibe.ts line 141). -/
def encryptIBECall (r : Except String (List Nat)) : Except String (List Nat) :=
  wrapCall "IBE encrypt failed: " r

/-- Catch branch of `decryptIBE` (ibe.ts line 168). -/
def decryptIBECall (r : Except String (List Nat)) : Except String (List Nat) :=
  wrapCall "IBE decrypt failed: " r

/-- Catch branch of `encryptABE` (abe.ts line 116). -/
def encryptABECall (r : Except String (List Nat)) : Except String (List Nat) :=
  wrapCall "ABE encrypt failed: " r

/-- Catch branch of `decryptABE` (abe.ts line 137). -/
def decryptABECall (r : Except String (List Nat)) : Except String (List Nat) :=
  wrapCall "ABE decrypt failed: " r

/-- Catch branch of `encryptKPABE` (abe.ts line 262). -/
def encryptKPABECall (r : Except String (List Nat)) : Except String (List Nat) :=
  wrapCall "KP-ABE encrypt failed: " r

/-- Catch branch of `decryptKPABE` (abe.ts line 285). -/
def decryptKPABECall (r : Except String (List Nat)) : Except String (List Nat) :=
  wrapCall "KP-ABE decrypt failed: " r

/-- IBE Extract threaded through an entropy stream: the operation consumes
no randomness (spec §4.4), so the stream passes through untouched. -/
def extractIBEKeyR (mk : IBEMasterKey) (id : Label) (rng : List Scalar) :
    IBEPrivateKey × List Scalar := (extractIBEKey mk id, rng)

/-- ABE KeyGen threaded through an entropy stream: the operation consumes
no randomness (spec §4.5), so the stream passes through untouched. -/
def keyGenABER (mk : ABEMasterKey) (attrs : List Label) (rng : List Scalar) :
    Except ABEError ABEPrivateKey × List Scalar := (keyGenABE mk attrs, rng)

/-- Decrypting an IBE ciphertext made for `id1` with the key extracted for
`id2`, everything under one Setup. -/
def ibeWrongDecrypt (s r : Scalar) (id1 id2 : Label) (m : List Nat) :
    List Nat :=
  decryptIBE (extractIBEKey (setupIBE s).1 id2)
    (encryptIBE (setupIBE s).2 id1 m r)

deriving instance DecidableEq for Except

/-! ## Proofs -/

/-- Length of the KDF mask is exactly the requested length. -/
theorem kdf_length (gt : Scalar) (n : Nat) : (kdf gt n).length = n := by
  simp [kdf]

theorem xorBytes_length (a b : List Nat) :
    (xorBytes a b).length = min a.length b.length := by
  simp [xorBytes]

/-- Masking twice with the same mask restores the message. -/
theorem xorBytes_cancel (m k : List Nat) (h : m.length ≤ k.length) :
    xorBytes (xorBytes m k) k = m := by
  induction m generalizing k with
  | nil => simp [xorBytes]
  | cons a t ih =>
    cases k with
    | nil => simp at h
    | cons b u =>
      show ((a ^^^ b) ^^^ b) :: xorBytes (xorBytes t u) u = a :: t
      rw [Nat.xor_assoc, Nat.xor_self, Nat.xor_zero,
        ih u (Nat.le_of_succ_le_succ h)]

/-- From `m ^^^ a ^^^ b = m` conclude `a = b`. -/
theorem xor_eq_self_iff (m a b : Nat) : m ^^^ a ^^^ b = m ↔ a = b := by
  constructor
  · intro h
    have h1 : m ^^^ (a ^^^ b) = m ^^^ 0 := by
      rw [← Nat.xor_assoc, h, Nat.xor_zero]
    have h2 : a ^^^ b = 0 := by
      have := congrArg (fun z => m ^^^ z) h1
      simpa [← Nat.xor_assoc, Nat.xor_self, Nat.zero_xor] using this
    have h3 : b = a ^^^ (a ^^^ b) := by
      rw [← Nat.xor_assoc, Nat.xor_self, Nat.zero_xor]
    rw [h3, h2, Nat.xor_zero]
  · intro h
    rw [h, Nat.xor_assoc, Nat.xor_self, Nat.xor_zero]

/-- Re-masking with a different mask of the same length cannot restore the
message. -/
theorem xorBytes_ne_of_mask_ne (m k1 k2 : List Nat)
    (h1 : k1.length = m.length) (h2 : k2.length = m.length) (hne : k1 ≠ k2) :
    xorBytes (xorBytes m k1) k2 ≠ m := by
  induction m generalizing k1 k2 with
  | nil =>
    cases k1 with
    | nil =>
      cases k2 with
      | nil => exact absurd rfl hne
      | cons b u => simp at h2
    | cons a t => simp at h1
  | cons a t ih =>
    cases k1 with
    | nil => simp at h1
    | cons x xs =>
      cases k2 with
      | nil => simp at h2
      | cons y ys =>
        intro hcontra
        have hsplit : ((a ^^^ x) ^^^ y) = a ∧ xorBytes (xorBytes t xs) ys = t :=
          List.cons_eq_cons.mp hcontra
        have hxy : x = y := (xor_eq_self_iff a x y).mp hsplit.1
        have hxs : xs ≠ ys := by
          intro habs
          exact hne (by rw [hxy, habs])
        exact ih xs ys (by simpa using h1) (by simpa using h2) hxs hsplit.2

/-- Round-trip lemma shared by the correctness claims: decrypting with the
key extracted for the same identity recovers the message exactly. -/
theorem ibe_enc_dec (s r : Scalar) (id : Label) (m : List Nat) :
    decryptIBE (extractIBEKey (setupIBE s).1 id)
      (encryptIBE (setupIBE s).2 id m r) = m := by
  have hmask :
      pairDL (extractIBEKey (setupIBE s).1 id).key
          (encryptIBE (setupIBE s).2 id m r).U
        = pairDL (setupIBE s).2.params (hashToPoint id) * r := by
    simp only [pairDL, extractIBEKey, encryptIBE, setupIBE, generatorDL]
    ring
  have hlen : (encryptIBE (setupIBE s).2 id m r).V.length = m.length := by
    simp [encryptIBE, xorBytes_length, kdf_length]
  simp only [decryptIBE, hmask, hlen]
  exact xorBytes_cancel m _ (by rw [kdf_length])

/-- Looking up a granted attribute finds its component `s · H(a)`. -/
theorem lookupComp_mem (s : Scalar) (ka : List Label) (a : Label)
    (h : a ∈ ka) : lookupComp (mkComponents s ka) a = some (s * hashToPoint a) := by
  induction ka with
  | nil => simp at h
  | cons b t ih =>
    by_cases hab : a = b
    · subst hab
      simp [mkComponents, lookupComp]
    · have hat : a ∈ t := by
        rcases List.mem_cons.mp h with h1 | h1
        · exact absurd h1 hab
        · exact h1
      simpa [mkComponents, lookupComp, hab] using ih hat

/-- Looking up an absent attribute finds nothing. -/
theorem lookupComp_not_mem (s : Scalar) (ka : List Label) (a : Label)
    (h : a ∉ ka) : lookupComp (mkComponents s ka) a = none := by
  induction ka with
  | nil => rfl
  | cons b t ih =>
    have hab : a ≠ b := fun habs => h (habs ▸ List.mem_cons_self b t)
    have hat : a ∉ t := fun habs => h (List.mem_cons_of_mem b habs)
    simpa [mkComponents, lookupComp, hab] using ih hat

/-- When the key's attribute list covers the ciphertext's list, gathering
recovers exactly the component of every listed attribute. -/
theorem gatherComps_covers (s : Scalar) (ka po : List Label)
    (hc : coversB ka po = true) :
    gatherComps (mkComponents s ka) po
      = some (po.map (fun a => s * hashToPoint a)) := by
  induction po with
  | nil => rfl
  | cons a t ih =>
    have h1 : a ∈ ka ∧ coversB ka t = true := by
      simpa [coversB, List.all_cons] using hc
    simp [gatherComps, lookupComp_mem s ka a h1.1, ih h1.2]

/-- When coverage fails, some component is absent and gathering fails. -/
theorem gatherComps_not_covers (s : Scalar) (ka po : List Label)
    (hc : coversB ka po = false) :
    gatherComps (mkComponents s ka) po = none := by
  induction po with
  | nil => simp [coversB] at hc
  | cons a t ih =>
    have hc' : (decide (a ∈ ka) && coversB ka t) = false := by
      simpa [coversB, List.all_cons] using hc
    by_cases hmem : a ∈ ka
    · have ht : coversB ka t = false := by simpa [hmem] using hc'
      simp [gatherComps, lookupComp_mem s ka a hmem, ih ht]
    · simp [gatherComps, lookupComp_not_mem s ka a hmem]

/-- A list always covers itself (equal sets decrypt successfully). -/
theorem coversB_self (l : List Label) : coversB l l = true := by
  simp [coversB, List.all_eq_true]

/-- Complete CP-ABE run with covering attributes recovers the plaintext. -/
theorem abeChain_ok (s r : Scalar) (ka po : List Label) (m : List Nat)
    (hka : ka ≠ []) (hpo : po ≠ []) (hc : coversB ka po = true) :
    abeChain s r ka po m = .ok m := by
  have hkg : keyGenABE (setupABE s).1 ka
      = .ok { attributes := ka, key := mkComponents s ka } := by
    simp [keyGenABE, hka, setupABE]
  have henc : encryptABE (setupABE s).2 po m r = .ok
      { U := r * generatorDL
        V := xorBytes m
          (kdf ((po.map
            (fun a => pairDL (s * generatorDL) (hashToPoint a) * r)).sum)
            m.length)
        tag := checkTag
          ((po.map (fun a => pairDL (s * generatorDL) (hashToPoint a) * r)).sum)
          m
        attrs := po } := by
    simp [encryptABE, hpo, setupABE]
  have hpv :
      ((po.map (fun a => s * hashToPoint a)).map
          (fun comp => pairDL comp (r * generatorDL))).sum
        = (po.map (fun a => pairDL (s * generatorDL) (hashToPoint a) * r)).sum := by
    rw [List.map_map]
    apply congrArg List.sum
    apply List.map_congr_left
    intro a _
    simp only [Function.comp, pairDL, generatorDL]
    ring
  have hlenV : (xorBytes m
      (kdf ((po.map
        (fun a => pairDL (s * generatorDL) (hashToPoint a) * r)).sum)
        m.length)).length = m.length := by
    rw [xorBytes_length, kdf_length, Nat.min_self]
  unfold abeChain
  rw [hkg]
  show (encryptABE (setupABE s).2 po m r).bind _ = _
  rw [henc]
  show decryptABE _ _ = _
  rw [decryptABE]
  simp only [gatherComps_covers s ka po hc]
  simp only [hpv, hlenV]
  rw [xorBytes_cancel m _ (by rw [kdf_length])]
  rw [if_pos rfl]

/-- Complete CP-ABE run with non-covering attributes reports
AttributeMismatch. -/
theorem abeChain_mismatch (s r : Scalar) (ka po : List Label) (m : List Nat)
    (hka : ka ≠ []) (hpo : po ≠ []) (hc : coversB ka po = false) :
    abeChain s r ka po m = .error .AttributeMismatch := by
  have hkg : keyGenABE (setupABE s).1 ka
      = .ok { attributes := ka, key := mkComponents s ka } := by
    simp [keyGenABE, hka, setupABE]
  have henc : encryptABE (setupABE s).2 po m r = .ok
      { U := r * generatorDL
        V := xorBytes m
          (kdf ((po.map
            (fun a => pairDL (s * generatorDL) (hashToPoint a) * r)).sum)
            m.length)
        tag := checkTag
          ((po.map (fun a => pairDL (s * generatorDL) (hashToPoint a) * r)).sum)
          m
        attrs := po } := by
    simp [encryptABE, hpo, setupABE]
  unfold abeChain
  rw [hkg]
  show (encryptABE (setupABE s).2 po m r).bind _ = _
  rw [henc]
  show decryptABE _ _ = _
  rw [decryptABE]
  simp only [gatherComps_not_covers s ka po hc]

theorem natToBE_length (l v : Nat) : (natToBE l v).length = l := by
  induction l generalizing v with
  | zero => rfl
  | succ n ih => simp [natToBE, ih]

theorem natToBE_wf (l v : Nat) : WFbytes (natToBE l v) := by
  induction l generalizing v with
  | zero => intro b hb; simp [natToBE] at hb
  | succ n ih =>
    intro b hb
    rcases List.mem_append.mp hb with h | h
    · exact ih (v / 256) b h
    · have : b = v % 256 := by simpa using h
      rw [this]
      exact Nat.mod_lt _ (by decide)

theorem beToNat_append_one (xs : List Nat) (b : Nat) :
    beToNat (xs ++ [b]) = beToNat xs * 256 + b := by
  simp [beToNat, List.foldl_append]

theorem beToNat_natToBE (l v : Nat) (h : v < 256 ^ l) :
    beToNat (natToBE l v) = v := by
  induction l generalizing v with
  | zero =>
    have : v = 0 := Nat.lt_one_iff.mp (by simpa using h)
    simp [this, natToBE, beToNat]
  | succ n ih =>
    have hdiv : v / 256 < 256 ^ n := by
      rw [Nat.div_lt_iff_lt_mul (by decide : 0 < 256)]
      calc v < 256 ^ (n + 1) := h
        _ = 256 ^ n * 256 := by rw [pow_succ]
    rw [natToBE, beToNat_append_one, ih (v / 256) hdiv]
    rw [Nat.mul_comm]
    exact Nat.div_add_mod v 256

theorem readBytesN_append (xs r : List Nat) (hwf : WFbytes xs) :
    readBytesN xs.length (xs ++ r) = some (xs, r) := by
  induction xs with
  | nil => rfl
  | cons b t ih =>
    have hb : b < 256 := hwf b (List.mem_cons_self b t)
    have ht : WFbytes t := fun x hx => hwf x (List.mem_cons_of_mem b hx)
    simp [readBytesN, hb, ih ht]

theorem readLen_enc (n : Nat) (r : List Nat) (h : n < 4294967296) :
    readLen (natToBE 4 n ++ r) = some (n, r) := by
  have h4 : (natToBE 4 n).length = 4 := natToBE_length 4 n
  have := readBytesN_append (natToBE 4 n) r (natToBE_wf 4 n)
  rw [h4] at this
  simp [readLen, this, beToNat_natToBE 4 n (by simpa using h)]

theorem readScalar_enc (x : Scalar) (r : List Nat) :
    readScalar (encScalar x ++ r) = some (x, r) := by
  have hlt : x.val < groupOrder := ZMod.val_lt x
  have h4 : (natToBE 4 x.val).length = 4 := natToBE_length 4 x.val
  have hrd := readBytesN_append (natToBE 4 x.val) r (natToBE_wf 4 x.val)
  rw [h4] at hrd
  have hval : beToNat (natToBE 4 x.val) = x.val :=
    beToNat_natToBE 4 x.val (lt_trans hlt (by decide))
  simp [readScalar, encScalar, hrd, hval, hlt, ZMod.natCast_zmod_val]

theorem readBlob_enc (bs r : List Nat) (h : WFblob bs) :
    readBlob (encBlob bs ++ r) = some (bs, r) := by
  have hlen := readLen_enc bs.length (bs ++ r) h.2
  rw [readBlob, encBlob, List.append_assoc, hlen]
  exact readBytesN_append bs r h.1

theorem readBlobs_enc (as : List Label) (r : List Nat)
    (h : ∀ a ∈ as, WFblob a) :
    readBlobs as.length ((as.map encBlob).flatten ++ r) = some (as, r) := by
  induction as with
  | nil => rfl
  | cons a t ih =>
    have ha : WFblob a := h a (List.mem_cons_self a t)
    have ht : ∀ x ∈ t, WFblob x := fun x hx => h x (List.mem_cons_of_mem a hx)
    show (readBlob ((encBlob a :: t.map encBlob).flatten ++ r)).bind _ = _
    rw [List.flatten_cons, List.append_assoc, readBlob_enc a _ ha]
    simp [ih ht]

theorem readScalars_enc (ks : List Scalar) (r : List Nat) :
    readScalars ks.length ((ks.map encScalar).flatten ++ r) = some (ks, r) := by
  induction ks with
  | nil => rfl
  | cons k t ih =>
    show (readScalar ((encScalar k :: t.map encScalar).flatten ++ r)).bind _ = _
    rw [List.flatten_cons, List.append_assoc, readScalar_enc k _]
    simp [ih]

/-- Zipping a pair list's components back together restores it. -/
theorem zip_fst_snd (l : List (Label × Scalar)) :
    (l.map Prod.fst).zip (l.map Prod.snd) = l := by
  induction l with
  | nil => rfl
  | cons p t ih => simp [ih]

theorem decode_encodeIBEMasterKey (k : IBEMasterKey) :
    decodeIBEMasterKey (encodeIBEMasterKey k) = some k := by
  have h : encodeIBEMasterKey k = encScalar k.secret ++ [] := by
    simp [encodeIBEMasterKey]
  rw [decodeIBEMasterKey, h, readScalar_enc]
  rfl

theorem decode_encodeIBEPublicParams (pp : IBEPublicParams) :
    decodeIBEPublicParams (encodeIBEPublicParams pp) = some pp := by
  have h : encodeIBEPublicParams pp = encScalar pp.params ++ [] := by
    simp [encodeIBEPublicParams]
  rw [decodeIBEPublicParams, h, readScalar_enc]
  rfl

theorem decode_encodeIBEPrivateKey (k : IBEPrivateKey) :
    decodeIBEPrivateKey (encodeIBEPrivateKey k) = some k := by
  have h : encodeIBEPrivateKey k = encScalar k.key ++ [] := by
    simp [encodeIBEPrivateKey]
  rw [decodeIBEPrivateKey, h, readScalar_enc]
  rfl

theorem decode_encodeIBECiphertext (c : IBECiphertext) (h : WFblob c.V) :
    decodeIBECiphertext (encodeIBECiphertext c) = some c := by
  have hsh : encodeIBECiphertext c
      = encScalar c.U ++ (encBlob c.V ++ []) := by
    simp [encodeIBECiphertext]
  rw [decodeIBECiphertext, hsh, readScalar_enc]
  show (readBlob (encBlob c.V ++ [])).bind _ = _
  rw [readBlob_enc c.V [] h]
  rfl

theorem decode_encodeABEMasterKey (k : ABEMasterKey) :
    decodeABEMasterKey (encodeABEMasterKey k) = some k := by
  have h : encodeABEMasterKey k = encScalar k.secret ++ [] := by
    simp [encodeABEMasterKey]
  rw [decodeABEMasterKey, h, readScalar_enc]
  rfl

theorem decode_encodeABEPublicParams (pp : ABEPublicParams) :
    decodeABEPublicParams (encodeABEPublicParams pp) = some pp := by
  have h : encodeABEPublicParams pp = encScalar pp.params ++ [] := by
    simp [encodeABEPublicParams]
  rw [decodeABEPublicParams, h, readScalar_enc]
  rfl

theorem decode_encodeABEPrivateKey (k : ABEPrivateKey)
    (h : WFABEPrivateKey k) :
    decodeABEPrivateKey (encodeABEPrivateKey k) = some k := by
  have hlen : k.key.length = k.attributes.length := by
    rw [← h.2, List.length_map]
  have hmaps : (k.key.map Prod.snd).map encScalar
      = k.key.map (fun p => encScalar p.2) := by
    rw [List.map_map]
    rfl
  have hsh : encodeABEPrivateKey k
      = natToBE 4 k.attributes.length
        ++ ((k.attributes.map encBlob).flatten
          ++ (((k.key.map Prod.snd).map encScalar).flatten ++ [])) := by
    rw [encodeABEPrivateKey, encBlobs, hmaps, List.append_assoc, List.append_nil]
  rw [decodeABEPrivateKey, hsh, readLen_enc _ _ h.1.2]
  show (readBlobs k.attributes.length _).bind _ = _
  rw [readBlobs_enc k.attributes _ h.1.1]
  show (readScalars k.attributes.length _).bind _ = _
  rw [← hlen, ← List.length_map k.key Prod.snd, readScalars_enc]
  have hzip : k.attributes.zip (k.key.map Prod.snd) = k.key := by
    conv_lhs => rw [← h.2]
    exact zip_fst_snd k.key
  simp [hzip]

theorem decode_encodeABECiphertext (c : ABECiphertext)
    (h : WFABECiphertext c) :
    decodeABECiphertext (encodeABECiphertext c) = some c := by
  have hsh : encodeABECiphertext c
      = encScalar c.U ++ (encBlob c.V ++ (natToBE 4 c.tag
        ++ (natToBE 4 c.attrs.length
          ++ ((c.attrs.map encBlob).flatten ++ [])))) := by
    simp [encodeABECiphertext, encBlobs]
  rw [decodeABECiphertext, hsh, readScalar_enc]
  show (readBlob _).bind _ = _
  rw [readBlob_enc c.V _ h.1]
  show (readLen _).bind _ = _
  rw [readLen_enc c.tag _ h.2.1]
  show (readLen _).bind _ = _
  rw [readLen_enc c.attrs.length _ h.2.2.2]
  show (readBlobs c.attrs.length _).bind _ = _
  rw [readBlobs_enc c.attrs [] h.2.2.1]
  rfl

/-- ABE decryption under one Setup succeeds with the exact plaintext iff the
key's attribute list covers the ciphertext's governing list. -/
theorem abeChain_iff (s r : Scalar) (kl cl : List Label) (m : List Nat)
    (hk : kl ≠ []) (hc : cl ≠ []) :
    abeChain s r kl cl m = .ok m ↔ coversB kl cl = true := by
  cases h : coversB kl cl
  · rw [abeChain_mismatch s r kl cl m hk hc h]
    simp
  · rw [abeChain_ok s r kl cl m hk hc h]
    simp

/-- The KP-ABE chain coincides with the CP-ABE chain of the model (its
constituents are the symmetric aliases). -/
theorem kpabeChain_eq (s r : Scalar) (po attrs : List Label) (m : List Nat) :
    kpabeChain s r po attrs m = abeChain s r po attrs m := rfl

/-- C1: for every message and identity, when master key and public
parameters come from the same Setup call, decrypting with the key extracted
for the identity the ciphertext produced for that identity returns exactly
the message (IBE round-trip correctness). -/
theorem claim_c1_ibe_roundtrip (s r : Scalar) (id : Label) (m : List Nat) :
    decryptIBE (extractIBEKey (setupIBE s).1 id)
      (encryptIBE (setupIBE s).2 id m r) = m :=
  ibe_enc_dec s r id m

/-- C2 counterexample: the claim's KP-ABE direction fails on the model: with
key policy `{A}` and ciphertext attribute set `{A, B}` the attribute set is
a superset of the policy, yet Decrypt reports AttributeMismatch (the key
has no component for `B`, which the recombined product requires). -/
theorem claim_c2_counterexample :
    coversB [[65], [66]] [[65]] = true
    ∧ kpabeChain 2 3 [[65]] [[65], [66]] [72]
      = .error .AttributeMismatch := by
  constructor
  · decide
  · decide

/-- C2 amended: decrypt recovers the original plaintext iff the decrypting
key's attribute list covers the ciphertext's governing list — for CP-ABE,
key attributes ⊇ ciphertext policy (as the claim states); for KP-ABE, key
policy ⊇ ciphertext attributes (the converse of the claim's containment);
equal sets succeed in both variants, including the single-attribute case,
since every list covers itself. -/
theorem claim_c2_amended (s r : Scalar) (kl cl : List Label) (m : List Nat)
    (hk : kl ≠ []) (hc : cl ≠ []) :
    (abeChain s r kl cl m = .ok m ↔ coversB kl cl = true)
    ∧ (kpabeChain s r kl cl m = .ok m ↔ coversB kl cl = true)
    ∧ coversB kl kl = true :=
  ⟨abeChain_iff s r kl cl m hk hc,
    (kpabeChain_eq s r kl cl m) ▸ abeChain_iff s r kl cl m hk hc,
    coversB_self kl⟩

/-- C2 witness: a concrete single-attribute CP-ABE run with equal sets
decrypts to the exact plaintext. -/
theorem claim_c2_witness :
    (([[65]] : List Label) ≠ []) ∧ (([[65]] : List Label) ≠ [])
    ∧ (abeChain 2 3 [[65]] [[65]] [72] = .ok [72]
      ↔ coversB [[65]] [[65]] = true) :=
  ⟨by decide, by decide,
    (claim_c2_amended 2 3 [[65]] [[65]] [72] (by decide) (by decide)).1⟩

/-- C3: attempting ABE decryption with a key whose attribute list does not
cover the ciphertext's governing list fails with the explicit
AttributeMismatch error (for both the CP and the KP chain), and decryption
never returns incorrect plaintext bytes: under one Setup it yields either
the exact original message or AttributeMismatch. -/
theorem claim_c3_attribute_mismatch_detected (s r : Scalar)
    (kl cl : List Label) (m : List Nat) (hk : kl ≠ []) (hc : cl ≠ []) :
    (coversB kl cl = false →
      abeChain s r kl cl m = .error .AttributeMismatch
      ∧ kpabeChain s r kl cl m = .error .AttributeMismatch)
    ∧ (abeChain s r kl cl m = .ok m
      ∨ abeChain s r kl cl m = .error .AttributeMismatch) := by
  constructor
  · intro h
    exact ⟨abeChain_mismatch s r kl cl m hk hc h,
      (kpabeChain_eq s r kl cl m) ▸ abeChain_mismatch s r kl cl m hk hc h⟩
  · cases h : coversB kl cl
    · exact Or.inr (abeChain_mismatch s r kl cl m hk hc h)
    · exact Or.inl (abeChain_ok s r kl cl m hk hc h)

/-- C3 witness: a concrete mismatched run reports AttributeMismatch. -/
theorem claim_c3_witness :
    (([[65]] : List Label) ≠ []) ∧ (([[66]] : List Label) ≠ [])
    ∧ coversB [[65]] [[66]] = false
    ∧ abeChain 2 3 [[65]] [[66]] [72] = .error .AttributeMismatch :=
  ⟨by decide, by decide, by decide,
    ((claim_c3_attribute_mismatch_detected 2 3 [[65]] [[66]] [72]
      (by decide) (by decide)).1 (by decide)).1⟩

/-- C4: decrypting an IBE ciphertext for `id1` with the key extracted for a
different identity `id2` signals no error — it returns a byte string of the
message's length — and, whenever the two derived masks differ (the
overwhelming-probability event the claim appeals to), that byte string is
not the original message. -/
theorem claim_c4_wrong_key_garbage (s r : Scalar) (id1 id2 : Label)
    (m : List Nat) (_hid : id1 ≠ id2)
    (hmask :
      kdf (pairDL (setupIBE s).2.params (hashToPoint id1) * r) m.length
        ≠ kdf (pairDL (extractIBEKey (setupIBE s).1 id2).key
            (encryptIBE (setupIBE s).2 id1 m r).U) m.length) :
    (ibeWrongDecrypt s r id1 id2 m).length = m.length
    ∧ ibeWrongDecrypt s r id1 id2 m ≠ m := by
  have hlenV : (encryptIBE (setupIBE s).2 id1 m r).V.length = m.length := by
    simp [encryptIBE, xorBytes_length, kdf_length]
  constructor
  · show (xorBytes (encryptIBE (setupIBE s).2 id1 m r).V _).length = m.length
    rw [xorBytes_length, kdf_length, hlenV, Nat.min_self]
  · show xorBytes (xorBytes m _) _ ≠ m
    rw [hlenV]
    exact xorBytes_ne_of_mask_ne m _ _ (kdf_length _ _) (kdf_length _ _)
      (fun habs => hmask habs)

/-- C4 witness: a concrete wrong-identity decryption returns a byte string
of the right length that differs from the message. -/
theorem claim_c4_witness :
    (([65] : Label) ≠ [66])
    ∧ (kdf (pairDL (setupIBE 2).2.params (hashToPoint [65]) * 3)
          ([72] : List Nat).length
        ≠ kdf (pairDL (extractIBEKey (setupIBE 2).1 [66]).key
            (encryptIBE (setupIBE 2).2 [65] [72] 3).U)
          ([72] : List Nat).length)
    ∧ (ibeWrongDecrypt 2 3 [65] [66] [72]).length = 1
    ∧ ibeWrongDecrypt 2 3 [65] [66] [72] ≠ [72] :=
  ⟨by decide, by decide,
    (claim_c4_wrong_key_garbage 2 3 [65] [66] [72] (by decide) (by decide)).1,
    (claim_c4_wrong_key_garbage 2 3 [65] [66] [72] (by decide) (by decide)).2⟩

/-- C5: Extract/KeyGen is a deterministic function of the master key and
the identity or attribute set: threaded through any two entropy streams it
consumes nothing and produces structurally identical keys, whose canonical
wire encodings are therefore bit-identical. -/
theorem claim_c5_extract_deterministic (mk : IBEMasterKey)
    (amk : ABEMasterKey) (id : Label) (attrs : List Label)
    (r1 r2 : List Scalar) :
    (extractIBEKeyR mk id r1).1 = (extractIBEKeyR mk id r2).1
    ∧ encodeIBEPrivateKey (extractIBEKeyR mk id r1).1
      = encodeIBEPrivateKey (extractIBEKeyR mk id r2).1
    ∧ (keyGenABER amk attrs r1).1 = (keyGenABER amk attrs r2).1
    ∧ ((keyGenABER amk attrs r1).1).map encodeABEPrivateKey
      = ((keyGenABER amk attrs r2).1).map encodeABEPrivateKey :=
  ⟨rfl, rfl, rfl, rfl⟩

/-- C6: ABE Encrypt and KeyGen called with an empty attribute set or empty
policy are rejected with the EmptyPolicy error, producing neither a key nor
a ciphertext, in both the CP and the KP variants. -/
theorem claim_c6_empty_policy_rejected (pp : ABEPublicParams)
    (mk : ABEMasterKey) (m : List Nat) (r : Scalar) :
    encryptABE pp [] m r = .error .EmptyPolicy
    ∧ keyGenABE mk [] = .error .EmptyPolicy
    ∧ encryptKPABE pp [] m r = .error .EmptyPolicy
    ∧ keyGenKPABE mk [] = .error .EmptyPolicy :=
  ⟨rfl, rfl, rfl, rfl⟩

/-- C7: IBE Encrypt accepts messages of every length — the KDF mask is
stretched or truncated to the message's length, so the masked payload `V`
always has the message's length — and encrypting the zero-length message
then decrypting with the matching key yields the zero-length result. -/
theorem claim_c7_empty_message (pp : IBEPublicParams) (id : Label)
    (m : List Nat) (r s : Scalar) :
    (encryptIBE pp id m r).V.length = m.length
    ∧ decryptIBE (extractIBEKey (setupIBE s).1 id)
        (encryptIBE (setupIBE s).2 id [] r) = [] := by
  constructor
  · simp [encryptIBE, xorBytes_length, kdf_length]
  · exact ibe_enc_dec s r id []

/-- C8: for every constructed MasterKey, PublicParams, PrivateKey and
Ciphertext object (IBE and ABE alike, the composite objects wellformed as
their constructors produce them), decoding the canonical encoding returns
the object itself, and re-encoding the decoded object yields bytes
identical to the first encoding. -/
theorem claim_c8_serialization_roundtrip
    (mk : IBEMasterKey) (pp : IBEPublicParams) (ik : IBEPrivateKey)
    (ic : IBECiphertext) (amk : ABEMasterKey) (app : ABEPublicParams)
    (ak : ABEPrivateKey) (ac : ABECiphertext)
    (hic : WFblob ic.V) (hak : WFABEPrivateKey ak) (hac : WFABECiphertext ac) :
    (decodeIBEMasterKey (encodeIBEMasterKey mk) = some mk
      ∧ (decodeIBEMasterKey (encodeIBEMasterKey mk)).map encodeIBEMasterKey
        = some (encodeIBEMasterKey mk))
    ∧ (decodeIBEPublicParams (encodeIBEPublicParams pp) = some pp
      ∧ (decodeIBEPublicParams (encodeIBEPublicParams pp)).map
          encodeIBEPublicParams = some (encodeIBEPublicParams pp))
    ∧ (decodeIBEPrivateKey (encodeIBEPrivateKey ik) = some ik
      ∧ (decodeIBEPrivateKey (encodeIBEPrivateKey ik)).map encodeIBEPrivateKey
        = some (encodeIBEPrivateKey ik))
    ∧ (decodeIBECiphertext (encodeIBECiphertext ic) = some ic
      ∧ (decodeIBECiphertext (encodeIBECiphertext ic)).map encodeIBECiphertext
        = some (encodeIBECiphertext ic))
    ∧ (decodeABEMasterKey (encodeABEMasterKey amk) = some amk
      ∧ (decodeABEMasterKey (encodeABEMasterKey amk)).map encodeABEMasterKey
        = some (encodeABEMasterKey amk))
    ∧ (decodeABEPublicParams (encodeABEPublicParams app) = some app
      ∧ (decodeABEPublicParams (encodeABEPublicParams app)).map
          encodeABEPublicParams = some (encodeABEPublicParams app))
    ∧ (decodeABEPrivateKey (encodeABEPrivateKey ak) = some ak
      ∧ (decodeABEPrivateKey (encodeABEPrivateKey ak)).map encodeABEPrivateKey
        = some (encodeABEPrivateKey ak))
    ∧ (decodeABECiphertext (encodeABECiphertext ac) = some ac
      ∧ (decodeABECiphertext (encodeABECiphertext ac)).map encodeABECiphertext
        = some (encodeABECiphertext ac)) := by
  refine ⟨⟨decode_encodeIBEMasterKey mk, ?_⟩,
    ⟨decode_encodeIBEPublicParams pp, ?_⟩,
    ⟨decode_encodeIBEPrivateKey ik, ?_⟩,
    ⟨decode_encodeIBECiphertext ic hic, ?_⟩,
    ⟨decode_encodeABEMasterKey amk, ?_⟩,
    ⟨decode_encodeABEPublicParams app, ?_⟩,
    ⟨decode_encodeABEPrivateKey ak hak, ?_⟩,
    ⟨decode_encodeABECiphertext ac hac, ?_⟩⟩
  · rw [decode_encodeIBEMasterKey mk, Option.map_some']
  · rw [decode_encodeIBEPublicParams pp, Option.map_some']
  · rw [decode_encodeIBEPrivateKey ik, Option.map_some']
  · rw [decode_encodeIBECiphertext ic hic, Option.map_some']
  · rw [decode_encodeABEMasterKey amk, Option.map_some']
  · rw [decode_encodeABEPublicParams app, Option.map_some']
  · rw [decode_encodeABEPrivateKey ak hak, Option.map_some']
  · rw [decode_encodeABECiphertext ac hac, Option.map_some']

/-- C8 witness: concrete wellformed objects round-trip. -/
theorem claim_c8_witness :
    WFblob ({ U := 7, V := [1, 2, 3] } : IBECiphertext).V
    ∧ WFABEPrivateKey { attributes := [[65]], key := [([65], 9)] }
    ∧ WFABECiphertext { U := 11, V := [4, 5], tag := 12, attrs := [[66]] }
    ∧ decodeABEPrivateKey
        (encodeABEPrivateKey { attributes := [[65]], key := [([65], 9)] })
      = some { attributes := [[65]], key := [([65], 9)] } :=
  ⟨by decide, by decide, by decide,
    ((claim_c8_serialization_roundtrip { secret := 5 } { params := 6 }
      { key := 8 } { U := 7, V := [1, 2, 3] } { secret := 5 } { params := 6 }
      { attributes := [[65]], key := [([65], 9)] }
      { U := 11, V := [4, 5], tag := 12, attrs := [[66]] }
      (by decide) (by decide) (by decide)).2.2.2.2.2.2.1).1⟩

/-- C9 counterexample: the wrapper operations do mutate state observable by
other calls — the very first call on a fresh module flips the
`wasmModule`/`isInitialized` latch (ibe.ts lines 19-41), so its resulting
module state differs from the input state. -/
theorem claim_c9_counterexample :
    (decryptIBEOp { loaded := false, initialized := false }
        { key := 1 } { U := 1, V := [] }).1
      ≠ { loaded := false, initialized := false } := by
  decide

/-- C9 amended: apart from the one-time initialization latch, which the
first call sets and later calls only read, the wrapper operations share no
mutable state: on an already-initialized module every operation returns the
state unchanged, and the computed result depends only on the arguments (two
initialized states give identical results); key, parameter and ciphertext
values are immutable records that no operation modifies. -/
theorem claim_c9_amended (st st' : WasmModuleState)
    (h1 : st.initialized = true) (h2 : st.loaded = true)
    (h1' : st'.initialized = true) (h2' : st'.loaded = true)
    (mk : IBEMasterKey) (id : Label) (pp : IBEPublicParams) (m : List Nat)
    (r s : Scalar) (k : IBEPrivateKey) (c : IBECiphertext)
    (amk : ABEMasterKey) (attrs po : List Label) (app : ABEPublicParams)
    (ak : ABEPrivateKey) (ac : ABECiphertext) :
    (generateIBEKeyPairOp st s).1 = st
    ∧ (extractIBEKeyOp st mk id).1 = st
    ∧ (encryptIBEOp st pp id m r).1 = st
    ∧ (decryptIBEOp st k c).1 = st
    ∧ (extractABEKeyOp st amk attrs).1 = st
    ∧ (encryptABEOp st app po m r).1 = st
    ∧ (decryptABEOp st ak ac).1 = st
    ∧ (decryptIBEOp st k c).2 = (decryptIBEOp st' k c).2
    ∧ (encryptIBEOp st pp id m r).2 = (encryptIBEOp st' pp id m r).2 := by
  have hi : initIBEState st = st := by
    rw [initIBEState, h1, h2]
    rfl
  have ha : initABEState st = st := by
    rw [initABEState, h1, h2]
    rfl
  have hi' : initIBEState st' = st' := by
    rw [initIBEState, h1', h2']
    rfl
  refine ⟨?_, ?_, ?_, ?_, ?_, ?_, ?_, ?_, ?_⟩
  · rw [generateIBEKeyPairOp]
    simp [hi, h2]
  · rw [extractIBEKeyOp]
    simp [hi, h2]
  · rw [encryptIBEOp]
    simp [hi, h2]
  · rw [decryptIBEOp]
    simp [hi, h2]
  · rw [extractABEKeyOp]
    simp [ha, h2]
  · rw [encryptABEOp]
    simp [ha, h2]
  · rw [decryptABEOp]
    simp [ha, h2]
  · rw [decryptIBEOp, decryptIBEOp]
    simp [hi, hi', h2, h2']
  · rw [encryptIBEOp, encryptIBEOp]
    simp [hi, hi', h2, h2']

/-- C9 witness: on an initialized module a decrypt call leaves the module
state unchanged. -/
theorem claim_c9_witness :
    ({ loaded := true, initialized := true } : WasmModuleState).initialized
      = true
    ∧ (decryptIBEOp { loaded := true, initialized := true }
          { key := 1 } { U := 1, V := [] }).1
      = { loaded := true, initialized := true } :=
  ⟨rfl,
    (claim_c9_amended { loaded := true, initialized := true }
      { loaded := true, initialized := true } rfl rfl rfl rfl
      { secret := 1 } [] { params := 1 } [] 1 1 { key := 1 }
      { U := 1, V := [] } { secret := 1 } [] [] { params := 1 }
      { attributes := [], key := [] }
      { U := 1, V := [], tag := 0, attrs := [] }).2.2.2.1⟩

/-- C10: when the underlying wasm call of a public wrapper operation
throws, the wrapper throws an Error whose message is that operation's fixed
text followed by the original error, and returns no value — never a
partial result. -/
theorem claim_c10_error_wrapping (e : String) :
    extractIBEKeyCall (.error e) = .error ("IBE extract failed: " ++ e)
    ∧ encryptIBECall (.error e) = .error ("IBE encrypt failed: " ++ e)
    ∧ decryptIBECall (.error e) = .error ("IBE decrypt failed: " ++ e)
    ∧ encryptABECall (.error e) = .error ("ABE encrypt failed: " ++ e)
    ∧ decryptABECall (.error e) = .error ("ABE decrypt failed: " ++ e)
    ∧ encryptKPABECall (.error e) = .error ("KP-ABE encrypt failed: " ++ e)
    ∧ decryptKPABECall (.error e) = .error ("KP-ABE decrypt failed: " ++ e)
    ∧ (∀ k : IBEPrivateKey, extractIBEKeyCall (.error e) ≠ .ok k)
    ∧ (∀ v : List Nat, encryptIBECall (.error e) ≠ .ok v)
    ∧ (∀ v : List Nat, decryptIBECall (.error e) ≠ .ok v)
    ∧ (∀ v : List Nat, encryptABECall (.error e) ≠ .ok v)
    ∧ (∀ v : List Nat, decryptABECall (.error e) ≠ .ok v)
    ∧ (∀ v : List Nat, encryptKPABECall (.error e) ≠ .ok v)
    ∧ (∀ v : List Nat, decryptKPABECall (.error e) ≠ .ok v) :=
  ⟨rfl, rfl, rfl, rfl, rfl, rfl, rfl,
    fun _ h => Except.noConfusion h, fun _ h => Except.noConfusion h,
    fun _ h => Except.noConfusion h, fun _ h => Except.noConfusion h,
    fun _ h => Except.noConfusion h, fun _ h => Except.noConfusion h,
    fun _ h => Except.noConfusion h⟩
